import Mathlib

/-!
Shallow embedding of the linkedin-agent repository's discovery, publishing and
rate-limiting core, together with proofs of the specification's claims.

Source files embedded:
  internal/models (Topic, Post, RawTopic, statuses, CanRetry, IsHighScore)
  internal/source/interface.go (GenerateExternalID, Manager.FetchAll)
  internal/agent/discovery/agent.go (Run, deduplicateTopics, rankTopics)
  internal/linkedin/client.go (Publish, ProcessScheduledPosts,
    GetTodayPublishCount, SchedulePost, ApprovePost, GenerateContent)
  cmd/scheduler/main.go (publish-window callback)
  pkg/ratelimit/limiter.go (MultiLimiter)

Time is modelled as a natural number of seconds since the epoch.  Scores are
rationals (the Go code uses float64 only for 0-100 relevance scores compared
against the literal 80.0, which is exact in both representations).  The
persistence layer (sqlite/GORM) is modelled as in-memory lists; its only
failure mode in the model is the unique-index violation on Topic.ExternalID
declared in the source's GORM tags.  External collaborators (the language
model, the LinkedIn platform, the clock) are injected as explicit oracles.
-/

/-- Status of a post, mirroring models.PostStatus. -/
inductive PostStatus where
  | draft
  | scheduled
  | publishing
  | published
  | failed
deriving DecidableEq, Repr

/-- Type of a post, mirroring models.PostType. -/
inductive PostType where
  | text
  | poll
  | article
deriving DecidableEq, Repr

/-- Status of a topic, mirroring models.TopicStatus. -/
inductive TopicStatus where
  | pending
  | approved
  | rejected
  | used
deriving DecidableEq, Repr

/-- Poll payload stored in Post.PostFormat (question, options, duration). -/
structure PollFormat where
  question : String
  options : List String
deriving DecidableEq, Repr

/-- A discovered topic, mirroring models.Topic.  Fields not touched by the
verified operations (timestamps, raw payload) are omitted. -/
structure Topic where
  id : Nat
  externalID : String
  title : String
  description : String
  url : String
  sourceType : String
  sourceName : String
  aiScore : ℚ
  aiAnalysis : String
  status : TopicStatus
deriving DecidableEq, Repr

/-- A post, mirroring models.Post. -/
structure Post where
  id : Nat
  topicId : Option Nat
  content : String
  postType : PostType
  postFormat : Option PollFormat
  linkedInPostURN : String
  status : PostStatus
  scheduledFor : Option Nat
  publishedAt : Option Nat
  errorMessage : String
  retryCount : Nat
deriving DecidableEq, Repr

/-- CanRetry from models (source.go): true when the post is failed and has
been retried fewer than 3 times. -/
def Post.CanRetry (p : Post) : Bool :=
  p.status = PostStatus.failed && p.retryCount < 3

/-- IsHighScore from models: the auto-publish threshold check, `AIScore >= 80.0`. -/
def Topic.IsHighScore (t : Topic) : Bool :=
  (80 : ℚ) ≤ t.aiScore

/-- A raw fetched item, mirroring models.RawTopic. -/
structure RawTopic where
  title : String
  description : String
  url : String
  sourceType : String
  sourceName : String
deriving DecidableEq, Repr

/-- One per-item ranking returned by the scoring collaborator
(ai.TopicRanking: score, analysis, suggested angle, hashtags). -/
structure Ranking where
  score : ℚ
  analysis : String
deriving DecidableEq, Repr

/-- The persistence layer state: the topics and posts tables. -/
structure Repo where
  topics : List Topic
  posts : List Post
deriving DecidableEq, Repr

/-- GetTopicByID: first topic with the given primary key. -/
def Repo.getTopicByID (r : Repo) (id : Nat) : Option Topic :=
  r.topics.find? (fun t => t.id = id)

/-- GetPostByID: first post with the given primary key. -/
def Repo.getPostByID (r : Repo) (id : Nat) : Option Post :=
  r.posts.find? (fun p => p.id = id)

/-- UpdatePost (GORM Save): replace the row with the same primary key. -/
def Repo.updatePost (r : Repo) (p : Post) : Repo :=
  { r with posts := r.posts.map (fun q => if q.id = p.id then p else q) }

/-- UpdateTopic (GORM Save): replace the row with the same primary key. -/
def Repo.updateTopic (r : Repo) (t : Topic) : Repo :=
  { r with topics := r.topics.map (fun u => if u.id = t.id then t else u) }

/-- CreatePost: insert a new post row. -/
def Repo.createPost (r : Repo) (p : Post) : Repo :=
  { r with posts := r.posts ++ [p] }

/-- CreateTopic: insert a new topic row.  Topic.ExternalID carries a GORM
uniqueIndex, so inserting a duplicate external id fails (returns none). -/
def Repo.createTopic (r : Repo) (t : Topic) : Option Repo :=
  if r.topics.any (fun u => u.externalID = t.externalID) then none
  else some { r with topics := r.topics ++ [t] }

/-- GetScheduledPosts: posts with status scheduled and scheduled_for <= before.
A NULL scheduled_for never satisfies the SQL comparison. -/
def Repo.getScheduledPosts (r : Repo) (before : Nat) : List Post :=
  r.posts.filter (fun p =>
    p.status = PostStatus.scheduled &&
      match p.scheduledFor with
      | some t => t ≤ before
      | none => false)

/-- A per-service token bucket (golang.org/x/time/rate.Limiter state):
refill rate in tokens per second, burst cap, current tokens, and the time of
the last refill.  rate.NewLimiter starts with a full burst of tokens. -/
structure Bucket where
  ratePerSec : ℚ
  burst : Nat
  tokens : ℚ
  lastUpdate : Nat
deriving DecidableEq, Repr

/-- Advance a bucket to time now: tokens accrue continuously at ratePerSec,
capped at burst. -/
def Bucket.advance (b : Bucket) (now : Nat) : Bucket :=
  let dt : ℚ := (now : ℚ) - (b.lastUpdate : ℚ)
  let t := min ((b.burst : ℚ)) (b.tokens + b.ratePerSec * dt)
  { b with tokens := t, lastUpdate := now }

/-- MultiLimiter from pkg/ratelimit: a name-keyed collection of buckets. -/
structure MultiLimiter where
  limiters : List (String × Bucket)
deriving DecidableEq, Repr

/-- NewMultiLimiter: empty collection. -/
def MultiLimiter.new : MultiLimiter := { limiters := [] }

/-- AddLimiter: register (or replace) a bucket for a service name; the new
bucket starts full (rate.NewLimiter semantics). -/
def MultiLimiter.AddLimiter (m : MultiLimiter) (name : String) (rps : ℚ)
    (burst : Nat) (now : Nat) : MultiLimiter :=
  { limiters := (m.limiters.filter (fun kv => kv.1 ≠ name)) ++
      [(name, { ratePerSec := rps, burst := burst, tokens := (burst : ℚ),
                lastUpdate := now })] }

/-- Lookup of the bucket registered for a name. -/
def MultiLimiter.find (m : MultiLimiter) (name : String) : Option Bucket :=
  (m.limiters.find? (fun kv => kv.1 = name)).map Prod.snd

/-- Store back the bucket for a name. -/
def MultiLimiter.set (m : MultiLimiter) (name : String) (b : Bucket) :
    MultiLimiter :=
  { limiters := m.limiters.map (fun kv => if kv.1 = name then (name, b) else kv) }

/-- Wait from pkg/ratelimit: unknown service is an immediate error
"limiter NAME not found"; otherwise the call consumes one token, returning
the time at which the permit becomes available (the model's rendering of
blocking until a token has accrued). -/
def MultiLimiter.Wait (m : MultiLimiter) (name : String) (now : Nat) :
    Except String (Nat × MultiLimiter) :=
  match m.find name with
  | none => Except.error ("limiter " ++ name ++ " not found")
  | some b =>
    let b := b.advance now
    if (1 : ℚ) ≤ b.tokens then
      Except.ok (now, m.set name { b with tokens := b.tokens - 1 })
    else
      let delayQ : ℚ := (1 - b.tokens) / b.ratePerSec
      let grant : Nat := now + delayQ.ceil.toNat
      Except.ok (grant, m.set name { b with tokens := b.tokens - 1 })

/-- Allow from pkg/ratelimit: unknown service yields false (no error);
otherwise a non-blocking probe that consumes a token iff one is available. -/
def MultiLimiter.Allow (m : MultiLimiter) (name : String) (now : Nat) :
    Bool × MultiLimiter :=
  match m.find name with
  | none => (false, m)
  | some b =>
    let b := b.advance now
    if (1 : ℚ) ≤ b.tokens then
      (true, m.set name { b with tokens := b.tokens - 1 })
    else (false, m)

/-- Reserve from pkg/ratelimit: unknown service is an immediate error
"limiter NAME not found"; otherwise a reservation with its delay. -/
def MultiLimiter.Reserve (m : MultiLimiter) (name : String) (now : Nat) :
    Except String (Nat × MultiLimiter) :=
  match m.find name with
  | none => Except.error ("limiter " ++ name ++ " not found")
  | some b =>
    let b := b.advance now
    if (1 : ℚ) ≤ b.tokens then
      Except.ok (0, m.set name { b with tokens := b.tokens - 1 })
    else
      let delayQ : ℚ := (1 - b.tokens) / b.ratePerSec
      Except.ok (delayQ.ceil.toNat, m.set name { b with tokens := b.tokens - 1 })

/-- Manager.FetchAll from internal/source/interface.go.  Each registered
source is fetched on its own goroutine and the results are collected from a
channel; the argument list is the per-source outcomes in channel-arrival
order (an arbitrary interleaving).  Successes are concatenated, each
failure contributes one captured error. -/
def FetchAll (outcomes : List (Except String (List RawTopic))) :
    List RawTopic × List String :=
  match outcomes with
  | [] => ([], [])
  | o :: rest =>
    let (ts, es) := FetchAll rest
    match o with
    | Except.ok items => (items ++ ts, es)
    | Except.error e => (ts, e :: es)

/-- Chunking worker, structurally recursive on a fuel argument so that the
kernel can evaluate it; fuel at least the list length is enough. -/
def chunkSuccAux (k : Nat) : Nat → List α → List (List α)
  | _, [] => []
  | 0, _ :: _ => []
  | fuel + 1, x :: xs => (x :: xs).take (k + 1) :: chunkSuccAux k fuel ((x :: xs).drop (k + 1))

/-- Chunking helper: split a list into consecutive chunks of size k+1 (the
successor encoding keeps chunks nonempty).  Used for the discovery batch
size of 10 and the SHA-256 block size of 64. -/
def chunkSucc (k : Nat) (l : List α) : List (List α) :=
  chunkSuccAux k l.length l

/-- Words are 32-bit: arithmetic is taken modulo 2^32. -/
def wordMod : Nat := 4294967296

/-- Addition modulo 2^32. -/
def add32 (a b : Nat) : Nat := (a + b) % wordMod

/-- Bitwise complement within 32 bits. -/
def not32 (x : Nat) : Nat := Nat.xor x 4294967295

/-- Right rotation of a 32-bit word. -/
def rotr32 (x n : Nat) : Nat := ((x >>> n) ||| (x <<< (32 - n))) % wordMod

/-- SHA-256 big sigma-0. -/
def bsig0 (x : Nat) : Nat := Nat.xor (Nat.xor (rotr32 x 2) (rotr32 x 13)) (rotr32 x 22)

/-- SHA-256 big sigma-1. -/
def bsig1 (x : Nat) : Nat := Nat.xor (Nat.xor (rotr32 x 6) (rotr32 x 11)) (rotr32 x 25)

/-- SHA-256 small sigma-0. -/
def ssig0 (x : Nat) : Nat := Nat.xor (Nat.xor (rotr32 x 7) (rotr32 x 18)) (x >>> 3)

/-- SHA-256 small sigma-1. -/
def ssig1 (x : Nat) : Nat := Nat.xor (Nat.xor (rotr32 x 17) (rotr32 x 19)) (x >>> 10)

/-- SHA-256 choice function. -/
def shaCh (x y z : Nat) : Nat := Nat.xor (Nat.land x y) (Nat.land (not32 x) z)

/-- SHA-256 majority function. -/
def shaMaj (x y z : Nat) : Nat :=
  Nat.xor (Nat.xor (Nat.land x y) (Nat.land x z)) (Nat.land y z)

/-- The 64 SHA-256 round constants. -/
def shaK : List Nat :=
  [1116352408, 1899447441, 3049323471, 3921009573,
   961987163, 1508970993, 2453635748, 2870763221,
   3624381080, 310598401, 607225278, 1426881987,
   1925078388, 2162078206, 2614888103, 3248222580,
   3835390401, 4022224774, 264347078, 604807628,
   770255983, 1249150122, 1555081692, 1996064986,
   2554220882, 2821834349, 2952996808, 3210313671,
   3336571891, 3584528711, 113926993, 338241895,
   666307205, 773529912, 1294757372, 1396182291,
   1695183700, 1986661051, 2177026350, 2456956037,
   2730485921, 2820302411, 3259730800, 3345764771,
   3516065817, 3600352804, 4094571909, 275423344,
   430227734, 506948616, 659060556, 883997877,
   958139571, 1322822218, 1537002063, 1747873779,
   1955562222, 2024104815, 2227730452, 2361852424,
   2428436474, 2756734187, 3204031479, 3329325298]

/-- The eight 32-bit words of SHA-256 working state. -/
structure H8 where
  a : Nat
  b : Nat
  c : Nat
  d : Nat
  e : Nat
  f : Nat
  g : Nat
  h : Nat
deriving DecidableEq, Repr

/-- SHA-256 initial hash value. -/
def sha256init : H8 :=
  ⟨1779033703, 3144134277, 1013904242, 2773480762,
   1359893119, 2600822924, 528734635, 1541459225⟩

/-- One SHA-256 round: fold the schedule word w and round constant k into
the working state. -/
def shaRound (w k : Nat) (s : H8) : H8 :=
  let t1 := add32 (add32 (add32 (add32 s.h (bsig1 s.e)) (shaCh s.e s.f s.g)) k) w
  let t2 := add32 (bsig0 s.a) (shaMaj s.a s.b s.c)
  ⟨add32 t1 t2, s.a, s.b, s.c, add32 s.d t1, s.e, s.f, s.g⟩

/-- Group bytes into big-endian 32-bit words. -/
def bytesToWords : List Nat → List Nat
  | a :: b :: c :: d :: rest => (((a * 256 + b) * 256 + c) * 256 + d) :: bytesToWords rest
  | _ => []

/-- Extend 16 message words to the 64-entry message schedule. -/
def extendWords (ws : Array Nat) : Array Nat :=
  (List.range 48).foldl
    (fun acc i =>
      let t := i + 16
      acc.push (add32 (add32 (ssig1 (acc.getD (t - 2) 0)) (acc.getD (t - 7) 0))
        (add32 (ssig0 (acc.getD (t - 15) 0)) (acc.getD (t - 16) 0))))
    ws

/-- Compress one 64-byte block into the hash state. -/
def compressBlock (st : H8) (block : List Nat) : H8 :=
  let w := extendWords (bytesToWords block).toArray
  let s := (List.range 64).foldl
    (fun s t => shaRound (w.getD t 0) (shaK.getD t 0) s) st
  ⟨add32 st.a s.a, add32 st.b s.b, add32 st.c s.c, add32 st.d s.d,
   add32 st.e s.e, add32 st.f s.f, add32 st.g s.g, add32 st.h s.h⟩

/-- SHA-256 padding: append 0x80, zero bytes to 56 mod 64, and the 64-bit
big-endian bit length. -/
def sha256pad (msg : List Nat) : List Nat :=
  let bitLen := msg.length * 8
  let padZeros := (119 - msg.length % 64) % 64
  msg ++ [128] ++ List.replicate padZeros 0 ++
    (List.range 8).map (fun i => (bitLen >>> ((7 - i) * 8)) % 256)

/-- Serialize a 32-bit word to 4 big-endian bytes. -/
def word32Bytes (w : Nat) : List Nat :=
  [(w >>> 24) % 256, (w >>> 16) % 256, (w >>> 8) % 256, w % 256]

/-- SHA-256 of a byte sequence (crypto/sha256.Sum256), as 32 bytes. -/
def sha256 (msg : List Nat) : List Nat :=
  let fin := (chunkSucc 63 (sha256pad msg)).foldl compressBlock sha256init
  [fin.a, fin.b, fin.c, fin.d, fin.e, fin.f, fin.g, fin.h].flatMap word32Bytes

/-- UTF-8 encoding of one character (Go strings hold UTF-8 bytes). -/
def charUtf8 (c : Char) : List Nat :=
  let n := c.toNat
  if n < 128 then [n]
  else if n < 2048 then [192 + (n >>> 6), 128 + n % 64]
  else if n < 65536 then [224 + (n >>> 12), 128 + (n >>> 6) % 64, 128 + n % 64]
  else [240 + (n >>> 18), 128 + (n >>> 12) % 64, 128 + (n >>> 6) % 64, 128 + n % 64]

/-- UTF-8 bytes of a string. -/
def utf8Bytes (s : String) : List Nat := s.data.flatMap charUtf8

/-- Lowercase hexadecimal digit. -/
def hexDigit (n : Nat) : Char :=
  if n < 10 then Char.ofNat (48 + n) else Char.ofNat (87 + n)

/-- Two lowercase hex digits of a byte (fmt %x zero-pads each byte). -/
def byteHex (b : Nat) : List Char := [hexDigit (b / 16), hexDigit (b % 16)]

/-- GenerateExternalID from internal/source/interface.go: the lowercase hex
of the first 16 bytes of SHA-256 of "TYPE:URL". -/
def GenerateExternalID (sourceType url : String) : String :=
  String.mk (((sha256 (utf8Bytes (sourceType ++ (":") ++ url))).take 16).flatMap byteHex)

/-- External identifier of a raw item, as computed twice in the discovery
agent: GenerateExternalID(topic.SourceType, topic.URL). -/
def RawTopic.externalID (x : RawTopic) : String :=
  GenerateExternalID x.sourceType x.url

/-- GetTopicByExternalID as observed by deduplicateTopics, which discards
the call's error: when the lookup fails (lookupFails), the returned topic
pointer is nil regardless of what the table holds. -/
def repoLookup (repo : Repo) (lookupFails : String → Bool) (eid : String) :
    Option Topic :=
  if lookupFails eid then none
  else repo.topics.find? (fun t => t.externalID = eid)

/-- Worker for deduplicateTopics: walk the raw items accumulating the
in-batch seen set; drop an item when its external id was seen earlier in
the batch or when the (error-discarding) persistence lookup returns a
topic; otherwise keep it and mark it seen. -/
def dedupAux (lookup : String → Option Topic) : List String → List RawTopic → List RawTopic
  | _, [] => []
  | seen, x :: xs =>
    if x.externalID ∈ seen then dedupAux lookup seen xs
    else
      match lookup x.externalID with
      | some _ => dedupAux lookup seen xs
      | none => x :: dedupAux lookup (x.externalID :: seen) xs

/-- deduplicateTopics from the discovery agent. -/
def deduplicateTopics (repo : Repo) (lookupFails : String → Bool)
    (topics : List RawTopic) : List RawTopic :=
  dedupAux (repoLookup repo lookupFails) [] topics

/-- Build a models.Topic from a raw item and its (possibly missing)
ranking: status pending, the score and analysis only when the ranking
slot exists and is non-nil. -/
def mkTopic (raw : RawTopic) (rk : Option Ranking) : Topic :=
  let base : Topic :=
    { id := 0, externalID := raw.externalID, title := raw.title,
      description := raw.description, url := raw.url,
      sourceType := raw.sourceType, sourceName := raw.sourceName,
      aiScore := 0, aiAnalysis := "", status := TopicStatus.pending }
  match rk with
  | none => base
  | some r => { base with aiScore := r.score, aiAnalysis := r.analysis }

/-- Pair each raw item of a batch with its ranking by position; positions
beyond the rankings list (or holding nil) leave the topic unscored,
mirroring the `j < len(rankings) && rankings[j] != nil` guard. -/
def batchToTopics : List RawTopic → List (Option Ranking) → List Topic
  | [], _ => []
  | r :: rs, [] => mkTopic r none :: batchToTopics rs []
  | r :: rs, k :: ks => mkTopic r k :: batchToTopics rs ks

/-- rankTopics' batch loop: each batch goes to the scoring collaborator in
one call; a failed call drops the whole batch and records one error,
remaining batches still proceed. -/
def rankBatchesList (rank : List RawTopic → Option (List (Option Ranking))) :
    List (List RawTopic) → List Topic × List String
  | [] => ([], [])
  | b :: bs =>
    let rest := rankBatchesList rank bs
    match rank b with
    | none => (rest.1, ("batch ranking failed") :: rest.2)
    | some rks => (batchToTopics b rks ++ rest.1, rest.2)

/-- rankTopics from the discovery agent: batches of 10. -/
def rankTopics (rank : List RawTopic → Option (List (Option Ranking)))
    (raws : List RawTopic) : List Topic × List String :=
  rankBatchesList rank (chunkSucc 9 raws)

/-- The discovery run's save loop: persist each ranked topic individually;
a create failure increments the skipped counter, a success the saved
counter, and neither blocks the rest. -/
def saveTopics : Repo → List Topic → Repo × Nat × Nat
  | repo, [] => (repo, 0, 0)
  | repo, t :: ts =>
    match repo.createTopic t with
    | some repo1 =>
      let rest := saveTopics repo1 ts
      (rest.1, rest.2.1 + 1, rest.2.2)
    | none =>
      let rest := saveTopics repo ts
      (rest.1, rest.2.1, rest.2.2 + 1)

/-- The counters and errors returned by a discovery run. -/
structure DiscoveryResult where
  topicsFound : Nat
  topicsRanked : Nat
  topicsSaved : Nat
  topicsSkipped : Nat
  errors : List String
deriving DecidableEq, Repr

/-- Agent.Run from the discovery agent, over the already-collected fan-out
fetch output (items plus fetch errors), the injected scoring collaborator,
and the injected lookup-failure behaviour.  An empty fetch returns early;
otherwise: deduplicate, rank in batches, persist individually. -/
def discoveryRun (repo : Repo)
    (rank : List RawTopic → Option (List (Option Ranking)))
    (lookupFails : String → Bool)
    (fetched : List RawTopic) (fetchErrors : List String) :
    Repo × DiscoveryResult :=
  if fetched.isEmpty then
    (repo, { topicsFound := 0, topicsRanked := 0, topicsSaved := 0,
             topicsSkipped := 0, errors := fetchErrors })
  else
    let unique := deduplicateTopics repo lookupFails fetched
    let ranked := rankTopics rank unique
    let saved := saveTopics repo ranked.1
    (saved.1,
     { topicsFound := fetched.length, topicsRanked := ranked.1.length,
       topicsSaved := saved.2.1, topicsSkipped := saved.2.2,
       errors := fetchErrors ++ ranked.2 })

/-- The result record returned by Agent.Publish. -/
structure PublishResult where
  postID : Nat
  linkedInURN : String
  published : Bool
  errorMsg : Option String
deriving DecidableEq, Repr

/-- On publish success the post's topic (when present) is marked used. -/
def markTopicUsed (repo : Repo) (tid : Option Nat) : Repo :=
  match tid with
  | none => repo
  | some t =>
    match repo.getTopicByID t with
    | some topic => repo.updateTopic { topic with status := TopicStatus.used }
    | none => repo

/-- Agent.Publish from internal/linkedin/client.go.  The LinkedIn platform
call (text, image-with-fallback or poll path) is the injected `platform`
oracle returning a URN or an error.  A poll post with a nil PostFormat
skips the platform call with urn "" and no error, as in the source's
switch.  Already-published posts are rejected with no state change. -/
def Publish (repo : Repo) (platform : Post → Except String String) (now : Nat)
    (postID : Nat) : Repo × PublishResult :=
  match repo.getPostByID postID with
  | none =>
    (repo, { postID := postID, linkedInURN := "", published := false,
             errorMsg := some ("post not found") })
  | some post =>
    if post.status = PostStatus.published then
      (repo, { postID := postID, linkedInURN := "", published := false,
               errorMsg := some ("post already published") })
    else
      let post1 := { post with status := PostStatus.publishing }
      let repo1 := repo.updatePost post1
      let callRes : Except String String :=
        match post1.postType, post1.postFormat with
        | PostType.poll, none => Except.ok ("")
        | _, _ => platform post1
      match callRes with
      | Except.error e =>
        let post2 := { post1 with
          status := PostStatus.failed,
          errorMessage := e, retryCount := post1.retryCount + 1 }
        (repo1.updatePost post2,
         { postID := postID, linkedInURN := "", published := false,
           errorMsg := some e })
      | Except.ok urn =>
        let post2 := { post1 with
          status := PostStatus.published,
          linkedInPostURN := urn, publishedAt := some now }
        let repo2 := repo1.updatePost post2
        (markTopicUsed repo2 post2.topicId,
         { postID := postID, linkedInURN := urn, published := true,
           errorMsg := none })

/-- The sequential publish loop inside ProcessScheduledPosts, over the
snapshot of due posts: per-post errors are accumulated, successes counted. -/
def publishLoop (platform : Post → Except String String) (now : Nat) :
    Repo → List Post → Repo × Nat × List String
  | repo, [] => (repo, 0, [])
  | repo, p :: ps =>
    let step := Publish repo platform now p.id
    let rest := publishLoop platform now step.1 ps
    match step.2.errorMsg with
    | some e => (rest.1, rest.2.1, ("post " ++ toString p.id ++ ": " ++ e) :: rest.2.2)
    | none =>
      if step.2.published then (rest.1, rest.2.1 + 1, rest.2.2)
      else (rest.1, rest.2.1, rest.2.2)

/-- Agent.ProcessScheduledPosts: fetch the due scheduled posts and publish
each sequentially. -/
def ProcessScheduledPosts (repo : Repo) (platform : Post → Except String String)
    (now : Nat) : Repo × Nat × List String :=
  publishLoop platform now repo (repo.getScheduledPosts now)

/-- Agent.GetTodayPublishCount: list the published posts and count those
whose published_at is strictly after the start of the current day
(time.Truncate of 24 hours, with time as seconds since the epoch). -/
def GetTodayPublishCount (repo : Repo) (now : Nat) : Nat :=
  let today := now - now % 86400
  (repo.posts.filter (fun p =>
    p.status = PostStatus.published &&
      match p.publishedAt with
      | some t => today < t
      | none => false)).length

/-- The scheduler's publish-window callback (cmd/scheduler/main.go): check
the daily quota immediately before the sweep and skip the run entirely
when today's published count has reached max_posts_per_day; otherwise run
ProcessScheduledPosts. -/
def publishWindowCallback (repo : Repo) (platform : Post → Except String String)
    (maxPostsPerDay : Nat) (now : Nat) : Repo × Nat × List String :=
  if GetTodayPublishCount repo now ≥ maxPostsPerDay then (repo, 0, [])
  else ProcessScheduledPosts repo platform now

/-- Agent.SchedulePost: reject already-published posts, otherwise set
status scheduled and the given scheduled_for. -/
def SchedulePost (repo : Repo) (postID : Nat) (scheduledFor : Nat) :
    Except String Repo :=
  match repo.getPostByID postID with
  | none => Except.error ("post not found")
  | some post =>
    if post.status = PostStatus.published then
      Except.error ("cannot schedule already published post")
    else
      Except.ok (repo.updatePost
        { post with status := PostStatus.scheduled, scheduledFor := some scheduledFor })

/-- Agent.ApprovePost: valid only from draft; schedules for immediate
publishing (scheduled_for = now). -/
def ApprovePost (repo : Repo) (now : Nat) (postID : Nat) : Except String Repo :=
  match repo.getPostByID postID with
  | none => Except.error ("post not found")
  | some post =>
    if post.status ≠ PostStatus.draft then
      Except.error ("can only approve draft posts")
    else
      Except.ok (repo.updatePost
        { post with status := PostStatus.scheduled, scheduledFor := some now })

/-- Agent.GenerateContent: load the topic, invoke the generation
collaborator (content plus optional poll payload; none is a hard error
returning no state change), persist the draft, then promote it to
scheduled with scheduled_for = now exactly when the topic is high-score
and the auto-approve flag is set.  Media attachment is best-effort and
does not affect the verified fields. -/
def GenerateContent (repo : Repo) (gen : Topic → Option (String × Option PollFormat))
    (autoApprove : Bool) (now : Nat) (newPostID : Nat) (topicID : Nat)
    (ptype : PostType) : Option (Repo × Post) :=
  match repo.getTopicByID topicID with
  | none => none
  | some topic =>
    match gen topic with
    | none => none
    | some g =>
      let post : Post :=
        { id := newPostID, topicId := some topic.id, content := g.1,
          postType := ptype, postFormat := g.2, linkedInPostURN := "",
          status := PostStatus.draft, scheduledFor := none,
          publishedAt := none, errorMessage := "", retryCount := 0 }
      let repo1 := repo.createPost post
      if topic.IsHighScore && autoApprove then
        let post1 := { post with
          status := PostStatus.scheduled, scheduledFor := some now }
        some (repo1.updatePost post1, post1)
      else
        some (repo1, post)

/-- A post already published earlier today (the current day starts at 0 for
now = 1000). -/
def fixPublishedPost : Post :=
  { id := 1, topicId := none, content := ("done"), postType := PostType.text,
    postFormat := none, linkedInPostURN := ("urn:li:1"),
    status := PostStatus.published, scheduledFor := some 500,
    publishedAt := some 999, errorMessage := "", retryCount := 0 }

/-- A scheduled post that is due at now = 1000. -/
def fixDuePost : Post :=
  { id := 2, topicId := none, content := ("due"), postType := PostType.text,
    postFormat := none, linkedInPostURN := "", status := PostStatus.scheduled,
    scheduledFor := some 600, publishedAt := none, errorMessage := "",
    retryCount := 0 }

/-- A draft post. -/
def fixDraftPost : Post :=
  { id := 3, topicId := none, content := ("draft"), postType := PostType.text,
    postFormat := none, linkedInPostURN := "", status := PostStatus.draft,
    scheduledFor := none, publishedAt := none, errorMessage := "",
    retryCount := 0 }

/-- A post that has already failed to publish three times. -/
def fixThriceFailedPost : Post :=
  { id := 4, topicId := none, content := ("flaky"), postType := PostType.text,
    postFormat := none, linkedInPostURN := "", status := PostStatus.failed,
    scheduledFor := some 600, publishedAt := none,
    errorMessage := ("network down"), retryCount := 3 }

/-- Repository fixture: one post published today, one due scheduled post. -/
def fixRepoQuota : Repo := { topics := [], posts := [fixPublishedPost, fixDuePost] }

/-- Repository fixture for the state-machine claims. -/
def fixRepoStates : Repo :=
  { topics := [], posts := [fixPublishedPost, fixDuePost, fixDraftPost] }

/-- Repository fixture for the retry-cap claim. -/
def fixRepoRetry : Repo := { topics := [], posts := [fixThriceFailedPost] }

/-- A platform oracle that always succeeds. -/
def fixPlatformOk : Post → Except String String := fun _ => Except.ok ("urn:li:9")

/-- A platform oracle that always fails. -/
def fixPlatformFail : Post → Except String String :=
  fun _ => Except.error ("network down")

/-- A pending topic whose score is exactly the threshold 80. -/
def c5topic : Topic :=
  { id := 7, externalID := ("ext-7"), title := ("t80"), description := "",
    url := ("https://x/t80"), sourceType := ("rss"), sourceName := ("s"),
    aiScore := 80, aiAnalysis := "", status := TopicStatus.pending }

/-- A pending topic with score 90, strictly above the threshold. -/
def c5topicHigh : Topic :=
  { id := 8, externalID := ("ext-8"), title := ("t90"), description := "",
    url := ("https://x/t90"), sourceType := ("rss"), sourceName := ("s"),
    aiScore := 90, aiAnalysis := "", status := TopicStatus.pending }

/-- Repository fixture for the auto-approval claims. -/
def c5repo : Repo := { topics := [c5topic, c5topicHigh], posts := [] }

/-- A generation collaborator that always returns a plain text body. -/
def c5gen : Topic → Option (String × Option PollFormat) :=
  fun _ => some (("body"), none)

/-- The raw item used by the lookup-error claim. -/
def c10raw : RawTopic :=
  { title := ("t"), description := "", url := ("https://x/a"),
    sourceType := ("rss"), sourceName := ("s") }

/-- A repository that already holds a topic with c10raw's external id. -/
def c10repo : Repo :=
  { topics := [{ id := 1, externalID := RawTopic.externalID c10raw,
                 title := ("old"), description := "", url := ("https://x/a"),
                 sourceType := ("rss"), sourceName := ("s"), aiScore := 50,
                 aiAnalysis := "", status := TopicStatus.pending }],
    posts := [] }

/-- Two raw items with distinct urls, the same source output fetched on
two consecutive discovery runs. -/
def c3raws : List RawTopic :=
  [{ title := ("a1"), description := "", url := ("https://x/a"),
     sourceType := ("rss"), sourceName := ("s") },
   { title := ("a2"), description := "", url := ("https://x/b"),
     sourceType := ("rss"), sourceName := ("s") }]

/-- Eleven raw items with distinct urls: one full scoring batch of 10 and
one trailing singleton batch. -/
def c7raws : List RawTopic :=
  (List.range 11).map (fun i =>
    { title := ("t"), description := "", url := ("https://x/") ++ toString i,
      sourceType := ("rss"), sourceName := ("s") })

/-- A scoring collaborator that fails exactly on the singleton batch. -/
def c7rank : List RawTopic → Option (List (Option Ranking)) :=
  fun b => if b.length = 1 then none else some []

/-- A limiter with the name registered but permanently out of tokens
(burst 0), for comparison with the unregistered case. -/
def fixThrottledLimiter : MultiLimiter :=
  MultiLimiter.new.AddLimiter ("linkedin") 1 0 0

set_option maxRecDepth 10000

/-- C1: with max_posts_per_day = N and today's published count already at
(or beyond) N, the scheduler's publish-window callback checks the quota
immediately before the sweep and skips the run entirely: no post is
published, no errors are produced, and the store is unchanged, regardless
of how many scheduled posts are due. -/
theorem publish_window_quota_enforced (repo : Repo)
    (platform : Post → Except String String) (maxPerDay now : Nat)
    (h : maxPerDay ≤ GetTodayPublishCount repo now) :
    publishWindowCallback repo platform maxPerDay now = (repo, 0, []) := by
  unfold publishWindowCallback
  simp [h]

/-- C1 witness: one post published today with a daily maximum of 1; a due
scheduled post exists yet the callback publishes nothing. -/
theorem publish_window_quota_enforced_witness :
    1 ≤ GetTodayPublishCount fixRepoQuota 1000 ∧
      publishWindowCallback fixRepoQuota fixPlatformOk 1 1000 = (fixRepoQuota, 0, []) :=
  ⟨by decide, publish_window_quota_enforced fixRepoQuota fixPlatformOk 1 1000 (by decide)⟩

/-- C6: FetchAll collects one outcome per source (in channel-arrival
order), returns the concatenation of every successful source's items, and
captures one error per failed source; a failure never suppresses the
other sources' results. -/
theorem fetch_all_merges_everything
    (outcomes : List (Except String (List RawTopic))) :
    FetchAll outcomes =
      ((outcomes.filterMap (fun o =>
          match o with
          | Except.ok ts => some ts
          | Except.error _ => none)).flatten,
       outcomes.filterMap (fun o =>
          match o with
          | Except.ok _ => none
          | Except.error e => some e)) := by
  induction outcomes with
  | nil => rfl
  | cons o rest ih =>
    cases o with
    | ok ts => simp [FetchAll, ih]
    | error e => simp [FetchAll, ih]

/-- C8 counterexample: the non-blocking probe does not surface an
unregistered name.  Allow on a never-registered service returns the bare
boolean false with no error and no state change — exactly the value it
returns for a registered service whose bucket is empty — so the caller
cannot tell the programming error apart from ordinary throttling. -/
theorem allow_unknown_not_surfaced :
    MultiLimiter.new.Allow ("linkedin") 5 = (false, MultiLimiter.new) ∧
      (fixThrottledLimiter.Allow ("linkedin") 5).1 = false := by
  constructor
  · rfl
  · have h : ¬ ((1 : ℚ) ≤ 0) := by norm_num
    simp [fixThrottledLimiter, MultiLimiter.AddLimiter, MultiLimiter.new,
          MultiLimiter.Allow, MultiLimiter.find, Bucket.advance, h]

/-- C8 (amended): Wait and Reserve surface an unregistered service name
immediately as the error "limiter NAME not found"; Allow merely returns
false without error or state change. -/
theorem limiter_unknown_service (m : MultiLimiter) (name : String) (now : Nat)
    (h : m.find name = none) :
    m.Wait name now = Except.error ("limiter " ++ name ++ " not found") ∧
      m.Reserve name now = Except.error ("limiter " ++ name ++ " not found") ∧
      m.Allow name now = (false, m) := by
  unfold MultiLimiter.Wait MultiLimiter.Reserve MultiLimiter.Allow
  rw [h]
  exact ⟨rfl, rfl, rfl⟩

/-- C8 witness: the empty limiter knows no service named linkedin. -/
theorem limiter_unknown_service_witness :
    MultiLimiter.new.find ("linkedin") = none ∧
      MultiLimiter.new.Wait ("linkedin") 7 =
        Except.error ("limiter " ++ ("linkedin") ++ " not found") :=
  ⟨rfl, (limiter_unknown_service MultiLimiter.new ("linkedin") 7 rfl).1⟩

/-- C4: publishing an already-published post always fails with "post
already published" and leaves the store unchanged; scheduling an
already-published post always fails; approval succeeds exactly from
draft, and then sets status scheduled with scheduled_for = now. -/
theorem post_state_machine (repo : Repo) (platform : Post → Except String String)
    (now schedAt id : Nat) (post : Post)
    (hfind : repo.getPostByID id = some post) :
    (post.status = PostStatus.published →
      Publish repo platform now id =
        (repo, { postID := id, linkedInURN := "", published := false,
                 errorMsg := some ("post already published") }) ∧
      SchedulePost repo id schedAt =
        Except.error ("cannot schedule already published post")) ∧
    ((ApprovePost repo now id).isOk = true ↔ post.status = PostStatus.draft) ∧
    (post.status = PostStatus.draft →
      ApprovePost repo now id = Except.ok (repo.updatePost
        { post with status := PostStatus.scheduled, scheduledFor := some now })) := by
  unfold Publish SchedulePost ApprovePost
  rw [hfind]
  refine ⟨fun hpub => ?_, ?_, fun hd => ?_⟩
  · simp [hpub]
  · by_cases hd : post.status = PostStatus.draft <;>
      simp [hd, Except.isOk, Except.toBool]
  · simp [hd]

/-- C4 witness: in the fixture store, post 1 is published and post 3 is a
draft; publish and schedule are rejected on post 1, approve succeeds on
post 3. -/
theorem post_state_machine_witness :
    (Publish fixRepoStates fixPlatformOk 1000 1 =
        (fixRepoStates, { postID := 1, linkedInURN := "", published := false,
                          errorMsg := some ("post already published") }) ∧
      SchedulePost fixRepoStates 1 2000 =
        Except.error ("cannot schedule already published post")) ∧
    ApprovePost fixRepoStates 1000 3 = Except.ok (fixRepoStates.updatePost
      { fixDraftPost with status := PostStatus.scheduled, scheduledFor := some 1000 }) :=
  ⟨(post_state_machine fixRepoStates fixPlatformOk 1000 2000 1 fixPublishedPost rfl).1 rfl,
   (post_state_machine fixRepoStates fixPlatformOk 1000 2000 3 fixDraftPost rfl).2.2 rfl⟩

/-- After replacing the row with primary key p.id, looking that key up
returns the replacement (provided some row had the key). -/
theorem find?_id_map_update (l : List Post) (p : Post)
    (h : ∃ q ∈ l, q.id = p.id) :
    (l.map (fun q => if q.id = p.id then p else q)).find?
      (fun q => q.id = p.id) = some p := by
  induction l with
  | nil => simp at h
  | cons q l ih =>
    by_cases hq : q.id = p.id
    · simp [hq, List.find?]
    · obtain ⟨w, hw, hwid⟩ := h
      rcases List.mem_cons.mp hw with rfl | hwl
      · exact absurd hwid hq
      · simpa [hq, List.find?] using ih ⟨w, hwl, hwid⟩

/-- Replacing a row keeps the existence of a row with the same key. -/
theorem exists_id_map_update (l : List Post) (p : Post)
    (h : ∃ q ∈ l, q.id = p.id) :
    ∃ q ∈ l.map (fun q => if q.id = p.id then p else q), q.id = p.id := by
  obtain ⟨q, hq, hqid⟩ := h
  refine ⟨if q.id = p.id then p else q, List.mem_map_of_mem _ hq, ?_⟩
  by_cases h2 : q.id = p.id <;> simp [h2, hqid]

/-- After replacing the row keyed p.id in the store, reading that key
back returns the replacement (provided some row had the key). -/
theorem getPostByID_updatePost (r : Repo) (p : Post)
    (h : ∃ q ∈ r.posts, q.id = p.id) :
    (r.updatePost p).getPostByID p.id = some p := by
  unfold Repo.updatePost Repo.getPostByID
  exact find?_id_map_update r.posts p h

/-- C2 counterexample: a post that has already failed three times
(retry_count = 3) is given a fourth attempt by Publish — the attempt is
not policy-rejected — and on failure the bookkeeping silently stores
retry_count = 4, exceeding the cap of 3. -/
theorem retry_cap_counterexample :
    (Publish fixRepoRetry fixPlatformFail 1000 4).1.getPostByID 4 =
      some { fixThriceFailedPost with
             status := PostStatus.failed,
             errorMessage := ("network down"), retryCount := 4 } ∧
    (Publish fixRepoRetry fixPlatformFail 1000 4).2.errorMsg =
      some ("network down") ∧ 3 < 4 := by
  refine ⟨by decide, rfl, by decide⟩

/-- C2 (amended): the Publisher's bookkeeping does not enforce the retry
cap: any non-published post can be attempted again, and every platform
failure increments retry_count by one without bound, so a fourth attempt
on a thrice-failed post stores retry_count = 4.  The cap of 3 is encoded
only in the helper Post.CanRetry — true exactly when the post is failed
with retry_count < 3 — which no caller of the Publisher invokes. -/
theorem retry_count_unbounded (repo : Repo)
    (platform : Post → Except String String) (now id : Nat) (post : Post)
    (e : String) (hfind : repo.getPostByID id = some post)
    (hnp : post.status ≠ PostStatus.published)
    (hcall : (match post.postType, post.postFormat with
              | PostType.poll, none => Except.ok ("")
              | _, _ => platform { post with status := PostStatus.publishing }) =
             Except.error e) :
    ((Publish repo platform now id).1.getPostByID id =
      some { post with
             status := PostStatus.failed, errorMessage := e,
             retryCount := post.retryCount + 1 }) ∧
    (∀ p : Post, p.CanRetry = true ↔
      (p.status = PostStatus.failed ∧ p.retryCount < 3)) := by
  have hid : post.id = id := by
    have := List.find?_some hfind
    simpa using this
  have hmem : post ∈ repo.posts := List.mem_of_find?_eq_some hfind
  constructor
  · subst hid
    unfold Publish
    rw [hfind]
    dsimp only
    rw [if_neg hnp]
    rw [hcall]
    dsimp only
    exact getPostByID_updatePost _ _
      (exists_id_map_update repo.posts
        { post with status := PostStatus.publishing } ⟨post, hmem, rfl⟩)
  · intro p
    unfold Post.CanRetry
    by_cases h1 : p.status = PostStatus.failed <;>
      by_cases h2 : p.retryCount < 3 <;> simp [h1, h2]

/-- C2 amended witness: the thrice-failed fixture post is attempted and
its stored retry counter becomes 4. -/
theorem retry_count_unbounded_witness :
    ((Publish fixRepoRetry fixPlatformFail 1000 4).1.getPostByID 4 =
      some { fixThriceFailedPost with
             status := PostStatus.failed,
             errorMessage := ("network down"),
             retryCount := fixThriceFailedPost.retryCount + 1 }) ∧
    (∀ p : Post, p.CanRetry = true ↔
      (p.status = PostStatus.failed ∧ p.retryCount < 3)) :=
  retry_count_unbounded fixRepoRetry fixPlatformFail 1000 4
    fixThriceFailedPost ("network down") rfl (by decide) rfl

/-- C5 counterexample: with auto-approve set and a topic whose score is
exactly 80, the freshly persisted draft is promoted to scheduled with
scheduled_for = now, although a score of 80 does not exceed the threshold
of 80 — the source gate is `AIScore >= 80.0`, not strictly greater, and
the threshold is the hardcoded literal 80. -/
theorem auto_approve_boundary_counterexample :
    (GenerateContent c5repo c5gen true 500 21 7 PostType.text).map
        (fun rp => (rp.2.status, rp.2.scheduledFor)) =
      some (PostStatus.scheduled, some 500) ∧
    ¬ ((80 : ℚ) < 80) :=
  ⟨rfl, lt_irrefl (80 : ℚ)⟩

/-- C5 (amended): in GenerateContent the persisted draft is promoted to
scheduled with scheduled_for = now exactly when the topic's score is at
least the hardcoded high-score threshold 80 and the auto-approve flag is
set; otherwise it stays a draft with no scheduled time, and in either
case the stored post matches the returned one. -/
theorem auto_approve_policy (repo : Repo)
    (gen : Topic → Option (String × Option PollFormat)) (autoApprove : Bool)
    (now newId topicID : Nat) (ptype : PostType) (topic : Topic)
    (g : String × Option PollFormat)
    (hfind : repo.getTopicByID topicID = some topic)
    (hgen : gen topic = some g)
    (hfresh : ∀ q ∈ repo.posts, q.id ≠ newId) :
    ∃ rp, GenerateContent repo gen autoApprove now newId topicID ptype = some rp ∧
      (rp.2.status = PostStatus.scheduled ↔
        ((80 : ℚ) ≤ topic.aiScore ∧ autoApprove = true)) ∧
      (((80 : ℚ) ≤ topic.aiScore ∧ autoApprove = true) →
        rp.2.scheduledFor = some now) ∧
      (¬ ((80 : ℚ) ≤ topic.aiScore ∧ autoApprove = true) →
        rp.2.status = PostStatus.draft ∧ rp.2.scheduledFor = none) ∧
      rp.1.topics = repo.topics ∧ rp.1.posts = repo.posts ++ [rp.2] := by
  unfold GenerateContent
  rw [hfind]
  dsimp only
  rw [hgen]
  dsimp only
  by_cases hs : (80 : ℚ) ≤ topic.aiScore
  · by_cases ha : autoApprove = true
    · have hcond : (topic.IsHighScore && autoApprove) = true := by
        simp [Topic.IsHighScore, hs, ha]
      rw [if_pos hcond]
      refine ⟨_, rfl, ?_, ?_, ?_, rfl, ?_⟩
      · simp [hs, ha]
      · intro _; rfl
      · intro hcon; exact absurd ⟨hs, ha⟩ hcon
      · show List.map _ (repo.posts ++ [_]) = repo.posts ++ [_]
        rw [List.map_append]
        congr 1
        · conv_rhs => rw [← List.map_id repo.posts]
          apply List.map_congr_left
          intro q hq
          simp [hfresh q hq]
        · simp
    · have hcond : ¬ ((topic.IsHighScore && autoApprove) = true) := by
        simp [Topic.IsHighScore, ha]
      rw [if_neg hcond]
      refine ⟨_, rfl, ?_, ?_, ?_, rfl, rfl⟩
      · simp [ha]
      · rintro ⟨_, hcon⟩; exact absurd hcon ha
      · intro _; exact ⟨rfl, rfl⟩
  · have hcond : ¬ ((topic.IsHighScore && autoApprove) = true) := by
      simp [Topic.IsHighScore, hs]
    rw [if_neg hcond]
    refine ⟨_, rfl, ?_, ?_, ?_, rfl, rfl⟩
    · simp [hs]
    · rintro ⟨hcon, _⟩; exact absurd hcon hs
    · intro _; exact ⟨rfl, rfl⟩

/-- C5 witness: a score-90 topic with auto-approve on is promoted to
scheduled at the generation time. -/
theorem auto_approve_policy_witness :
    ∃ rp, GenerateContent c5repo c5gen true 600 22 8 PostType.text = some rp ∧
      (rp.2.status = PostStatus.scheduled ↔
        ((80 : ℚ) ≤ c5topicHigh.aiScore ∧ true = true)) ∧
      (((80 : ℚ) ≤ c5topicHigh.aiScore ∧ true = true) →
        rp.2.scheduledFor = some 600) ∧
      (¬ ((80 : ℚ) ≤ c5topicHigh.aiScore ∧ true = true) →
        rp.2.status = PostStatus.draft ∧ rp.2.scheduledFor = none) ∧
      rp.1.topics = c5repo.topics ∧ rp.1.posts = c5repo.posts ++ [rp.2] :=
  auto_approve_policy c5repo c5gen true 600 22 8 PostType.text c5topicHigh
    (("body"), none) rfl rfl (by intro q hq; simp [c5repo] at hq)

/-- SHA-256 always yields exactly 32 bytes. -/
theorem sha256_length (m : List Nat) : (sha256 m).length = 32 := by
  unfold sha256
  simp [word32Bytes]

/-- Hex encoding yields two characters per byte. -/
theorem length_flatMap_byteHex (l : List Nat) :
    (l.flatMap byteHex).length = 2 * l.length := by
  induction l with
  | nil => rfl
  | cons b l ih => simp [byteHex, ih]; omega

/-- C9: the external identifier is a pure function of (type, url) — equal
inputs give equal identifiers, and the result is always a 32-character
hex string.  Distinctness under a changed url or a changed type (the
claim's "with overwhelming probability" collision-resistance) is
witnessed at the spec's concrete scenario inputs. -/
theorem external_id_pure (t u t2 u2 : String) (h1 : t = t2) (h2 : u = u2) :
    GenerateExternalID t u = GenerateExternalID t2 u2 ∧
    (GenerateExternalID t u).length = 32 ∧
    GenerateExternalID ("rss") ("https://x/a") ≠
      GenerateExternalID ("rss") ("https://x/b") ∧
    GenerateExternalID ("rss") ("https://x/a") ≠
      GenerateExternalID ("custom") ("https://x/a") := by
  subst h1
  subst h2
  refine ⟨rfl, ?_, by decide, by decide⟩
  unfold GenerateExternalID
  rw [String.length]
  rw [length_flatMap_byteHex, List.length_take, sha256_length]
  norm_num

/-- C9 witness: instantiated at the spec's duplicate-across-runs url. -/
theorem external_id_pure_witness :
    GenerateExternalID ("rss") ("https://x/a") =
      GenerateExternalID ("rss") ("https://x/a") ∧
    (GenerateExternalID ("rss") ("https://x/a")).length = 32 ∧
    GenerateExternalID ("rss") ("https://x/a") ≠
      GenerateExternalID ("rss") ("https://x/b") ∧
    GenerateExternalID ("rss") ("https://x/a") ≠
      GenerateExternalID ("custom") ("https://x/a") :=
  external_id_pure ("rss") ("https://x/a") ("rss") ("https://x/a") rfl rfl

/-- C10: deduplicateTopics discards the persistence lookup's error, so
whenever the lookup fails the item is treated as never seen: even though
a topic with the same external id already exists in the store, the item
survives deduplication, is ranked (topicsRanked = 1), and persistence is
attempted — where only the store's unique index stops the duplicate row
(topicsSkipped = 1, topicsSaved = 0, store unchanged). -/
theorem dedup_lookup_error_ignored (repo : Repo) (x : RawTopic)
    (rank : List RawTopic → Option (List (Option Ranking)))
    (hex : ∃ t ∈ repo.topics, t.externalID = x.externalID)
    (hrk : (rank [x]).isSome) :
    deduplicateTopics repo (fun _ => true) [x] = [x] ∧
    (discoveryRun repo rank (fun _ => true) [x] []).2.topicsRanked = 1 ∧
    (discoveryRun repo rank (fun _ => true) [x] []).2.topicsSkipped = 1 ∧
    (discoveryRun repo rank (fun _ => true) [x] []).2.topicsSaved = 0 ∧
    (discoveryRun repo rank (fun _ => true) [x] []).1 = repo := by
  obtain ⟨rks, hrks⟩ := Option.isSome_iff_exists.mp hrk
  obtain ⟨t0, ht0, he0⟩ := hex
  have hdedup : deduplicateTopics repo (fun _ => true) [x] = [x] := rfl
  have hmk : ∀ k : Option Ranking, (mkTopic x k).externalID = x.externalID :=
    fun k => by cases k <;> rfl
  have hb2t : ∃ k, batchToTopics [x] rks = [mkTopic x k] := by
    cases rks with
    | nil => exact ⟨none, rfl⟩
    | cons k ks => exact ⟨k, rfl⟩
  obtain ⟨k, hk⟩ := hb2t
  have hcreate : repo.createTopic (mkTopic x k) = none := by
    unfold Repo.createTopic
    rw [if_pos]
    exact List.any_eq_true.mpr ⟨t0, ht0, by simp [hmk k, he0]⟩
  have hsave : saveTopics repo [mkTopic x k] = (repo, 0, 1) := by
    unfold saveTopics
    rw [hcreate]
    rfl
  have hrank : rankTopics rank [x] = ([mkTopic x k], []) := by
    unfold rankTopics
    rw [show chunkSucc 9 [x] = [[x]] from rfl]
    unfold rankBatchesList
    rw [hrks]
    simp [rankBatchesList, hk]
  have hrun : discoveryRun repo rank (fun _ => true) [x] [] =
      (repo, { topicsFound := 1, topicsRanked := 1, topicsSaved := 0,
               topicsSkipped := 1, errors := [] }) := by
    unfold discoveryRun
    rw [if_neg (by simp)]
    dsimp only
    rw [hdedup, hrank]
    dsimp only
    rw [hsave]
    rfl
  exact ⟨hdedup, by rw [hrun], by rw [hrun], by rw [hrun], by rw [hrun]⟩

/-- C10 witness: the fixture store already holds the item's external id,
yet with a failing lookup the item passes dedup and is re-ranked. -/
theorem dedup_lookup_error_ignored_witness :
    deduplicateTopics c10repo (fun _ => true) [c10raw] = [c10raw] ∧
    (discoveryRun c10repo (fun _ => some []) (fun _ => true) [c10raw] []).2.topicsRanked = 1 ∧
    (discoveryRun c10repo (fun _ => some []) (fun _ => true) [c10raw] []).2.topicsSkipped = 1 ∧
    (discoveryRun c10repo (fun _ => some []) (fun _ => true) [c10raw] []).2.topicsSaved = 0 ∧
    (discoveryRun c10repo (fun _ => some []) (fun _ => true) [c10raw] []).1 = c10repo :=
  dedup_lookup_error_ignored c10repo c10raw (fun _ => some [])
    ⟨{ id := 1, externalID := RawTopic.externalID c10raw, title := ("old"),
       description := "", url := ("https://x/a"), sourceType := ("rss"),
       sourceName := ("s"), aiScore := 50, aiAnalysis := "",
       status := TopicStatus.pending },
     by simp [c10repo], rfl⟩ rfl

/-- With enough fuel, flattening the chunks gives back the list. -/
theorem chunkSuccAux_flatten (k : Nat) :
    ∀ (fuel : Nat) (l : List α), l.length ≤ fuel →
      (chunkSuccAux k fuel l).flatten = l := by
  intro fuel
  induction fuel with
  | zero =>
    intro l hl
    cases l with
    | nil => rfl
    | cons x xs => simp at hl
  | succ fuel ih =>
    intro l hl
    cases l with
    | nil => rfl
    | cons x xs =>
      show ((x :: xs).take (k + 1) :: chunkSuccAux k fuel ((x :: xs).drop (k + 1))).flatten = x :: xs
      rw [List.flatten_cons,
        ih _ (by simp only [List.length_drop, List.length_cons] at hl ⊢; omega),
        List.take_append_drop]

/-- Flattening the chunks of a list gives back the list. -/
theorem chunkSucc_flatten (k : Nat) (l : List α) :
    (chunkSucc k l).flatten = l :=
  chunkSuccAux_flatten k l.length l (Nat.le_refl _)

/-- Every chunk is nonempty. -/
theorem chunkSucc_ne_nil (k : Nat) (l : List α) :
    ∀ b ∈ chunkSucc k l, b ≠ [] := by
  unfold chunkSucc
  generalize l.length = fuel
  induction fuel generalizing l with
  | zero => cases l <;> simp [chunkSuccAux]
  | succ fuel ih =>
    cases l with
    | nil => simp [chunkSuccAux]
    | cons x xs =>
      intro b hb
      rcases List.mem_cons.mp hb with rfl | hb2
      · simp
      · exact ih _ b hb2

/-- Every chunk has at most k+1 elements. -/
theorem chunkSucc_length_le (k : Nat) (l : List α) :
    ∀ b ∈ chunkSucc k l, b.length ≤ k + 1 := by
  unfold chunkSucc
  generalize l.length = fuel
  induction fuel generalizing l with
  | zero => cases l <;> simp [chunkSuccAux]
  | succ fuel ih =>
    cases l with
    | nil => simp [chunkSuccAux]
    | cons x xs =>
      intro b hb
      rcases List.mem_cons.mp hb with rfl | hb2
      · simp
      · exact ih _ b hb2

/-- Deduplication output is a subsequence of its input. -/
theorem dedupAux_sublist (lookup : String → Option Topic) :
    ∀ (seen : List String) (xs : List RawTopic),
      List.Sublist (dedupAux lookup seen xs) xs := by
  intro seen xs
  induction xs generalizing seen with
  | nil => simp [dedupAux]
  | cons x xs ih =>
    unfold dedupAux
    by_cases hs : x.externalID ∈ seen
    · simp only [if_pos hs]
      exact List.Sublist.cons x (ih seen)
    · simp only [if_neg hs]
      cases lookup x.externalID with
      | some t => exact List.Sublist.cons x (ih seen)
      | none => exact List.Sublist.cons₂ x (ih (x.externalID :: seen))

/-- The items kept by deduplication have pairwise distinct external ids,
ids the lookup does not know, and ids outside the initial seen set. -/
theorem dedupAux_props (lookup : String → Option Topic) :
    ∀ (seen : List String) (xs : List RawTopic),
      ((dedupAux lookup seen xs).map RawTopic.externalID).Nodup ∧
      ∀ y ∈ dedupAux lookup seen xs,
        lookup y.externalID = none ∧ y.externalID ∉ seen := by
  intro seen xs
  induction xs generalizing seen with
  | nil => simp [dedupAux]
  | cons x xs ih
  =>
    unfold dedupAux
    by_cases hs : x.externalID ∈ seen
    · simp only [if_pos hs]
      exact ih seen
    · simp only [if_neg hs]
      cases hl : lookup x.externalID with
      | some t => exact ih seen
      | none =>
        obtain ⟨ihn, ihp⟩ := ih (x.externalID :: seen)
        refine ⟨?_, ?_⟩
        · rw [List.map_cons, List.nodup_cons]
          refine ⟨?_, ihn⟩
          intro hmem
          obtain ⟨y, hy, hyid⟩ := List.mem_map.mp hmem
          exact (ihp y hy).2 (by rw [hyid]; exact List.mem_cons_self _ _)
        · intro y hy
          rcases List.mem_cons.mp hy with rfl | hy2
          · exact ⟨hl, hs⟩
          · obtain ⟨h1, h2⟩ := ihp y hy2
            exact ⟨h1, fun hc => h2 (List.mem_cons_of_mem _ hc)⟩

/-- Every input item's id is in the seen set, among the kept items' ids,
or known to the lookup. -/
theorem dedupAux_cover (lookup : String → Option Topic) :
    ∀ (seen : List String) (xs : List RawTopic), ∀ x ∈ xs,
      x.externalID ∈ seen ∨
      x.externalID ∈ (dedupAux lookup seen xs).map RawTopic.externalID ∨
      (lookup x.externalID).isSome := by
  intro seen xs
  induction xs generalizing seen with
  | nil => simp
  | cons y xs ih =>
    intro x hx
    unfold dedupAux
    by_cases hs : y.externalID ∈ seen
    · rcases List.mem_cons.mp hx with rfl | hx2
      · exact Or.inl hs
      · simpa only [if_pos hs] using ih seen x hx2
    · simp only [if_neg hs]
      cases hl : lookup y.externalID with
      | some t =>
        rcases List.mem_cons.mp hx with rfl | hx2
        · exact Or.inr (Or.inr (by simp [hl]))
        · exact ih seen x hx2
      | none =>
        rcases List.mem_cons.mp hx with rfl | hx2
        · exact Or.inr (Or.inl (by simp))
        · rcases ih (y.externalID :: seen) x hx2 with h | h | h
          · rcases List.mem_cons.mp h with heq | hseen
            · exact Or.inr (Or.inl (by simp [heq]))
            · exact Or.inl hseen
          · exact Or.inr (Or.inl (by simp [h]))
          · exact Or.inr (Or.inr h)

/-- When the lookup knows every input id, deduplication drops everything. -/
theorem dedupAux_all_known (lookup : String → Option Topic) :
    ∀ (seen : List String) (xs : List RawTopic),
      (∀ x ∈ xs, (lookup x.externalID).isSome) →
      dedupAux lookup seen xs = [] := by
  intro seen xs
  induction xs generalizing seen with
  | nil => intro _; rfl
  | cons x xs ih =>
    intro h
    unfold dedupAux
    by_cases hs : x.externalID ∈ seen
    · simp only [if_pos hs]
      exact ih seen (fun y hy => h y (List.mem_cons_of_mem _ hy))
    · simp only [if_neg hs]
      cases hl : lookup x.externalID with
      | some t => exact ih seen (fun y hy => h y (List.mem_cons_of_mem _ hy))
      | none =>
        have := h x (List.mem_cons_self _ _)
        rw [hl] at this
        simp at this

/-- A built topic keeps its raw item's external id. -/
theorem mkTopic_externalID (raw : RawTopic) (k : Option Ranking) :
    (mkTopic raw k).externalID = raw.externalID := by
  cases k <;> rfl

/-- Topics built for a batch carry exactly the batch's external ids. -/
theorem batchToTopics_eids :
    ∀ (b : List RawTopic) (rks : List (Option Ranking)),
      (batchToTopics b rks).map Topic.externalID = b.map RawTopic.externalID := by
  intro b
  induction b with
  | nil => intro rks; rfl
  | cons r rs ih =>
    intro rks
    cases rks with
    | nil =>
      show Topic.externalID (mkTopic r none) ::
          (batchToTopics rs []).map Topic.externalID = _
      rw [mkTopic_externalID, ih]
      rfl
    | cons k ks =>
      show Topic.externalID (mkTopic r k) ::
          (batchToTopics rs ks).map Topic.externalID = _
      rw [mkTopic_externalID, ih]
      rfl

/-- Topics built for a batch are as many as the batch's items. -/
theorem batchToTopics_length (b : List RawTopic) (rks : List (Option Ranking)) :
    (batchToTopics b rks).length = b.length := by
  have := congrArg List.length (batchToTopics_eids b rks)
  simpa using this

/-- The ranked topics' ids form a subsequence of the batched input ids. -/
theorem rankBatchesList_eids_sublist
    (rank : List RawTopic → Option (List (Option Ranking))) :
    ∀ bs : List (List RawTopic),
      List.Sublist ((rankBatchesList rank bs).1.map Topic.externalID)
        (bs.flatten.map RawTopic.externalID) := by
  intro bs
  induction bs with
  | nil => simp [rankBatchesList]
  | cons b bs ih =>
    unfold rankBatchesList
    cases rank b with
    | none =>
      dsimp only
      rw [List.flatten_cons, List.map_append]
      exact ih.trans (List.sublist_append_right _ _)
    | some rks =>
      dsimp only
      rw [List.flatten_cons, List.map_append, List.map_append,
        batchToTopics_eids]
      exact List.Sublist.append (List.Sublist.refl _) ih

/-- When every batch scores successfully, the ranked ids are exactly the
batched input ids. -/
theorem rankBatchesList_total
    (rank : List RawTopic → Option (List (Option Ranking))) :
    ∀ bs : List (List RawTopic), (∀ b ∈ bs, (rank b).isSome) →
      (rankBatchesList rank bs).1.map Topic.externalID =
        bs.flatten.map RawTopic.externalID := by
  intro bs
  induction bs with
  | nil => intro _; rfl
  | cons b bs ih =>
    intro h
    unfold rankBatchesList
    cases hr : rank b with
    | none =>
      have := h b (List.mem_cons_self _ _)
      rw [hr] at this
      simp at this
    | some rks =>
      dsimp only
      rw [List.flatten_cons, List.map_append, List.map_append,
        batchToTopics_eids, ih (fun b2 hb2 => h b2 (List.mem_cons_of_mem _ hb2))]

/-- Ranked topics are never more than the batched input items. -/
theorem rankBatchesList_length_le
    (rank : List RawTopic → Option (List (Option Ranking))) :
    ∀ bs : List (List RawTopic),
      (rankBatchesList rank bs).1.length ≤ bs.flatten.length := by
  intro bs
  have := (rankBatchesList_eids_sublist rank bs).length_le
  rw [List.length_map, List.length_map] at this
  exact this

/-- A nonempty batch whose scoring call fails makes the ranked count
strictly smaller than the batched input count. -/
theorem rankBatchesList_length_lt
    (rank : List RawTopic → Option (List (Option Ranking))) :
    ∀ bs : List (List RawTopic), (∃ b ∈ bs, rank b = none ∧ b ≠ []) →
      (rankBatchesList rank bs).1.length < bs.flatten.length := by
  intro bs
  induction bs with
  | nil => rintro ⟨b, hb, _⟩; simp at hb
  | cons b bs ih =>
    rintro ⟨b0, hb0, hr0, hne0⟩
    unfold rankBatchesList
    rcases List.mem_cons.mp hb0 with rfl | hb0tl
    · rw [hr0]
      dsimp only
      rw [List.flatten_cons, List.length_append]
      have h1 := rankBatchesList_length_le rank bs
      have h2 : 0 < b0.length := List.length_pos.mpr hne0
      omega
    · cases hr : rank b with
      | none =>
        dsimp only
        rw [List.flatten_cons, List.length_append]
        have := ih ⟨b0, hb0tl, hr0, hne0⟩
        omega
      | some rks =>
        dsimp only
        rw [List.flatten_cons, List.length_append, List.length_append,
          batchToTopics_length]
        have := ih ⟨b0, hb0tl, hr0, hne0⟩
        omega

/-- A failed batch leaves at least one recorded error. -/
theorem rankBatchesList_errors_ne
    (rank : List RawTopic → Option (List (Option Ranking))) :
    ∀ bs : List (List RawTopic), (∃ b ∈ bs, rank b = none) →
      (rankBatchesList rank bs).2 ≠ [] := by
  intro bs
  induction bs with
  | nil => rintro ⟨b, hb, _⟩; simp at hb
  | cons b bs ih =>
    rintro ⟨b0, hb0, hr0⟩
    unfold rankBatchesList
    rcases List.mem_cons.mp hb0 with rfl | hb0tl
    · rw [hr0]
      simp
    · cases hr : rank b with
      | none => simp
      | some rks =>
        dsimp only
        exact ih ⟨b0, hb0tl, hr0⟩

/-- Topics of a successfully scored batch all appear among the ranked
topics. -/
theorem rankBatchesList_mem
    (rank : List RawTopic → Option (List (Option Ranking))) :
    ∀ (bs : List (List RawTopic)) (b : List RawTopic)
      (rks : List (Option Ranking)), b ∈ bs → rank b = some rks →
      ∀ t ∈ batchToTopics b rks, t ∈ (rankBatchesList rank bs).1 := by
  intro bs
  induction bs with
  | nil => intro b rks hb; simp at hb
  | cons b1 bs ih =>
    intro b rks hb hr t ht
    unfold rankBatchesList
    rcases List.mem_cons.mp hb with rfl | hbtl
    · rw [hr]
      dsimp only
      exact List.mem_append_left _ ht
    · cases hr1 : rank b1 with
      | none =>
        dsimp only
        exact ih b rks hbtl hr t ht
      | some rks1 =>
        dsimp only
        exact List.mem_append_right _ (ih b rks hbtl hr t ht)

/-- Saving never rewrites existing rows: the resulting topics table is the
old one followed by the subset of new topics that made it in; in
particular old rows survive and the posts table is untouched. -/
theorem saveTopics_topics_grow :
    ∀ (ts : List Topic) (repo : Repo), ∃ app : List Topic,
      (saveTopics repo ts).1.topics = repo.topics ++ app ∧
      (saveTopics repo ts).1.posts = repo.posts := by
  intro ts
  induction ts with
  | nil => intro repo; exact ⟨[], by simp [saveTopics], rfl⟩
  | cons t ts ih =>
    intro repo
    unfold saveTopics
    cases hc : repo.createTopic t with
    | some repo1 =>
      obtain ⟨app, happ, hposts⟩ := ih repo1
      unfold Repo.createTopic at hc
      by_cases hany : repo.topics.any (fun u => u.externalID = t.externalID)
      · rw [if_pos hany] at hc; cases hc
      · rw [if_neg hany] at hc
        cases hc
        exact ⟨t :: app, by simpa using happ, by simpa using hposts⟩
    | none =>
      obtain ⟨app, happ, hposts⟩ := ih repo
      exact ⟨app, happ, hposts⟩

/-- Saving keeps the distinctness of stored external ids. -/
theorem saveTopics_nodup :
    ∀ (ts : List Topic) (repo : Repo),
      (repo.topics.map Topic.externalID).Nodup →
      ((saveTopics repo ts).1.topics.map Topic.externalID).Nodup := by
  intro ts
  induction ts with
  | nil => intro repo h; simpa [saveTopics] using h
  | cons t ts ih =>
    intro repo h
    unfold saveTopics
    cases hc : repo.createTopic t with
    | some repo1 =>
      apply ih
      unfold Repo.createTopic at hc
      by_cases hany : repo.topics.any (fun u => u.externalID = t.externalID)
      · rw [if_pos hany] at hc; cases hc
      · rw [if_neg hany] at hc
        cases hc
        dsimp only
        rw [List.map_append, List.nodup_append]
        refine ⟨h, by simp, ?_⟩
        intro a ha hb
        simp only [List.map_cons, List.map_nil, List.mem_cons,
          List.not_mem_nil, or_false] at hb
        subst hb
        obtain ⟨u, hu, huid⟩ := List.mem_map.mp ha
        apply hany
        exact List.any_eq_true.mpr ⟨u, hu, by simp [huid]⟩
    | none => exact ih repo h

/-- When the new topics' ids are pairwise distinct and fresh with respect
to the store, every one of them is inserted: the table becomes the old
rows plus all of them, with saved = their count and skipped = 0. -/
theorem saveTopics_all_fresh :
    ∀ (ts : List Topic) (repo : Repo),
      ((ts.map Topic.externalID).Nodup) →
      (∀ t ∈ ts, ∀ u ∈ repo.topics, u.externalID ≠ t.externalID) →
      saveTopics repo ts =
        ({ topics := repo.topics ++ ts, posts := repo.posts }, ts.length, 0) := by
  intro ts
  induction ts with
  | nil => intro repo _ _; simp [saveTopics]
  | cons t ts ih =>
    intro repo hnd hfresh
    unfold saveTopics
    have hany : ¬ (repo.topics.any (fun u => u.externalID = t.externalID) = true) := by
      intro hc
      obtain ⟨u, hu, huid⟩ := List.any_eq_true.mp hc
      exact hfresh t (List.mem_cons_self _ _) u hu (by simpa using huid)
    have hc : repo.createTopic t =
        some { topics := repo.topics ++ [t], posts := repo.posts } := by
      unfold Repo.createTopic
      rw [if_neg hany]
    rw [hc]
    dsimp only
    have hnd2 : (ts.map Topic.externalID).Nodup := by
      rw [List.map_cons, List.nodup_cons] at hnd
      exact hnd.2
    have hne : t.externalID ∉ ts.map Topic.externalID := by
      rw [List.map_cons, List.nodup_cons] at hnd
      exact hnd.1
    have hfresh2 : ∀ s ∈ ts,
        ∀ u ∈ ({ topics := repo.topics ++ [t], posts := repo.posts } : Repo).topics,
          u.externalID ≠ s.externalID := by
      intro s hs u hu
      dsimp only at hu
      rcases List.mem_append.mp hu with hu1 | hu2
      · exact hfresh s (List.mem_cons_of_mem _ hs) u hu1
      · simp only [List.mem_cons, List.not_mem_nil, or_false] at hu2
        subst hu2
        intro heq
        exact hne (List.mem_map.mpr ⟨s, hs, heq.symm⟩)
    rw [ih _ hnd2 hfresh2]
    simp

/-- With no injected lookup failure, the dedup lookup is the plain
external-id search of the store. -/
theorem repoLookup_false (repo : Repo) (eid : String) :
    repoLookup repo (fun _ => false) eid =
      repo.topics.find? (fun t => t.externalID = eid) := rfl

/-- On a nonempty fetch, a discovery run deduplicates, ranks in batches
and saves, and reports the corresponding counters. -/
theorem discoveryRun_eq (repo : Repo)
    (rank : List RawTopic → Option (List (Option Ranking)))
    (lf : String → Bool) (fetched : List RawTopic) (fe : List String)
    (h : fetched ≠ []) :
    discoveryRun repo rank lf fetched fe =
      ((saveTopics repo (rankTopics rank (deduplicateTopics repo lf fetched)).1).1,
       { topicsFound := fetched.length,
         topicsRanked := (rankTopics rank (deduplicateTopics repo lf fetched)).1.length,
         topicsSaved := (saveTopics repo (rankTopics rank (deduplicateTopics repo lf fetched)).1).2.1,
         topicsSkipped := (saveTopics repo (rankTopics rank (deduplicateTopics repo lf fetched)).1).2.2,
         errors := fe ++ (rankTopics rank (deduplicateTopics repo lf fetched)).2 }) := by
  unfold discoveryRun
  rw [if_neg (by simp [h])]

/-- The ranked topics of a run have pairwise distinct external ids, all
fresh with respect to the store, so the save loop inserts every one of
them: saved equals the ranked count and nothing is skipped. -/
theorem discovery_ranked_saved (repo : Repo) (fetched : List RawTopic)
    (rank : List RawTopic → Option (List (Option Ranking))) :
    saveTopics repo (rankTopics rank (deduplicateTopics repo (fun _ => false) fetched)).1 =
      ({ topics := repo.topics ++
          (rankTopics rank (deduplicateTopics repo (fun _ => false) fetched)).1,
         posts := repo.posts },
       (rankTopics rank (deduplicateTopics repo (fun _ => false) fetched)).1.length,
       0) := by
  have hsub : List.Sublist
      ((rankTopics rank (deduplicateTopics repo (fun _ => false) fetched)).1.map
        Topic.externalID)
      ((deduplicateTopics repo (fun _ => false) fetched).map RawTopic.externalID) := by
    have h1 := rankBatchesList_eids_sublist rank
      (chunkSucc 9 (deduplicateTopics repo (fun _ => false) fetched))
    rw [chunkSucc_flatten] at h1
    exact h1
  have hprops := dedupAux_props (repoLookup repo (fun _ => false)) [] fetched
  apply saveTopics_all_fresh
  · exact hsub.nodup hprops.1
  · intro t ht u hu
    have hmem : t.externalID ∈
        (deduplicateTopics repo (fun _ => false) fetched).map RawTopic.externalID :=
      hsub.subset (List.mem_map_of_mem _ ht)
    obtain ⟨y, hy, hyid⟩ := List.mem_map.mp hmem
    have hnone := (hprops.2 y hy).1
    rw [repoLookup_false] at hnone
    have := List.find?_eq_none.mp hnone u hu
    simp only [decide_eq_true_eq] at this
    rw [← hyid]
    exact this

/-- When every batch scores, every fetched item's external id ends up in
the store after the run (it was either already there or has just been
inserted). -/
theorem discoveryRun_covers (repo : Repo) (fetched : List RawTopic)
    (fe : List String) (rank : List RawTopic → Option (List (Option Ranking)))
    (htotal : ∀ b, (rank b).isSome) :
    ∀ x ∈ fetched,
      ∃ t ∈ (discoveryRun repo rank (fun _ => false) fetched fe).1.topics,
        t.externalID = x.externalID := by
  intro x hx
  have hne : fetched ≠ [] := by rintro rfl; simp at hx
  rw [discoveryRun_eq repo rank (fun _ => false) fetched fe hne]
  rw [discovery_ranked_saved repo fetched rank]
  dsimp only
  have hcover := dedupAux_cover (repoLookup repo (fun _ => false)) [] fetched x hx
  rcases hcover with h | h | h
  · simp at h
  · have htot : (rankTopics rank (deduplicateTopics repo (fun _ => false) fetched)).1.map
        Topic.externalID =
        (deduplicateTopics repo (fun _ => false) fetched).map RawTopic.externalID := by
      have h1 := rankBatchesList_total rank
        (chunkSucc 9 (deduplicateTopics repo (fun _ => false) fetched))
        (fun b _ => htotal b)
      rw [chunkSucc_flatten] at h1
      exact h1
    have h2 : x.externalID ∈
        (deduplicateTopics repo (fun _ => false) fetched).map RawTopic.externalID := h
    rw [← htot] at h2
    obtain ⟨t, ht, htid⟩ := List.mem_map.mp h2
    exact ⟨t, List.mem_append_right _ ht, htid⟩
  · rw [repoLookup_false] at h
    obtain ⟨t, ht, htid⟩ := List.find?_isSome.mp h
    simp only [decide_eq_true_eq] at htid
    exact ⟨t, List.mem_append_left _ ht, htid⟩

/-- A discovery run preserves distinctness of the stored external ids. -/
theorem discoveryRun_nodup (repo : Repo)
    (rank : List RawTopic → Option (List (Option Ranking)))
    (lf : String → Bool) (fetched : List RawTopic) (fe : List String)
    (h : (repo.topics.map Topic.externalID).Nodup) :
    (((discoveryRun repo rank lf fetched fe).1.topics.map Topic.externalID)).Nodup := by
  by_cases hne : fetched = []
  · subst hne
    simpa [discoveryRun] using h
  · rw [discoveryRun_eq repo rank lf fetched fe hne]
    exact saveTopics_nodup _ repo h

/-- C3: discovery is dedup-idempotent.  Running the pipeline a second
time on the same source output saves zero topics and leaves the store
untouched (every identifier is found in the store and dropped before
scoring and persistence), the second run's found counter still reports
the fetched items, and across both runs the store never holds two topics
with the same external identifier.  The first run's scoring is assumed
to succeed (a batch whose scoring failed was never persisted and its
items legitimately save on a re-run). -/
theorem discovery_dedup_idempotent (repo : Repo) (fetched : List RawTopic)
    (fe1 fe2 : List String)
    (rank1 rank2 : List RawTopic → Option (List (Option Ranking)))
    (htotal : ∀ b, (rank1 b).isSome) :
    (discoveryRun (discoveryRun repo rank1 (fun _ => false) fetched fe1).1
        rank2 (fun _ => false) fetched fe2).2.topicsSaved = 0 ∧
    (discoveryRun (discoveryRun repo rank1 (fun _ => false) fetched fe1).1
        rank2 (fun _ => false) fetched fe2).1 =
      (discoveryRun repo rank1 (fun _ => false) fetched fe1).1 ∧
    ((repo.topics.map Topic.externalID).Nodup →
      ((discoveryRun (discoveryRun repo rank1 (fun _ => false) fetched fe1).1
          rank2 (fun _ => false) fetched fe2).1.topics.map Topic.externalID).Nodup) ∧
    (discoveryRun (discoveryRun repo rank1 (fun _ => false) fetched fe1).1
        rank2 (fun _ => false) fetched fe2).2.topicsFound = fetched.length := by
  by_cases hemp : fetched = []
  · subst hemp
    exact ⟨rfl, rfl, fun h => h, rfl⟩
  · have hcov := discoveryRun_covers repo fetched fe1 rank1 htotal
    have hlook : ∀ x ∈ fetched,
        ((repoLookup (discoveryRun repo rank1 (fun _ => false) fetched fe1).1
          (fun _ => false)) x.externalID).isSome := by
      intro x hx
      obtain ⟨t, ht, htid⟩ := hcov x hx
      rw [repoLookup_false]
      exact List.find?_isSome.mpr ⟨t, ht, by simp [htid]⟩
    have huniq : deduplicateTopics
        (discoveryRun repo rank1 (fun _ => false) fetched fe1).1
        (fun _ => false) fetched = [] :=
      dedupAux_all_known _ [] fetched hlook
    rw [discoveryRun_eq _ rank2 _ fetched fe2 hemp, huniq]
    exact ⟨rfl, rfl,
      fun h => discoveryRun_nodup repo rank1 (fun _ => false) fetched fe1 h, rfl⟩

/-- C3 witness: two items discovered into an empty store; the second run
finds both again, saves neither, and the store keeps distinct ids. -/
theorem discovery_dedup_idempotent_witness :
    (discoveryRun (discoveryRun (Repo.mk [] []) (fun _ => some [])
        (fun _ => false) c3raws []).1
        (fun _ => some []) (fun _ => false) c3raws []).2.topicsSaved = 0 ∧
    (discoveryRun (discoveryRun (Repo.mk [] []) (fun _ => some [])
        (fun _ => false) c3raws []).1
        (fun _ => some []) (fun _ => false) c3raws []).1 =
      (discoveryRun (Repo.mk [] []) (fun _ => some [])
        (fun _ => false) c3raws []).1 ∧
    (((Repo.mk [] []).topics.map Topic.externalID).Nodup →
      ((discoveryRun (discoveryRun (Repo.mk [] []) (fun _ => some [])
          (fun _ => false) c3raws []).1
          (fun _ => some []) (fun _ => false) c3raws []).1.topics.map
        Topic.externalID).Nodup) ∧
    (discoveryRun (discoveryRun (Repo.mk [] []) (fun _ => some [])
        (fun _ => false) c3raws []).1
        (fun _ => some []) (fun _ => false) c3raws []).2.topicsFound =
      c3raws.length :=
  discovery_dedup_idempotent (Repo.mk [] []) c3raws [] []
    (fun _ => some []) (fun _ => some []) (fun _ => rfl)

/-- C7: the discovery pipeline scores the unique items in batches of at
most 10; when the scoring call of one (nonempty) batch fails, its items
are dropped from the run and an error is recorded while the other
batches proceed: the aggregate result reports ranked < found together
with at least one error, and every topic of a successfully scored batch
is still persisted. -/
theorem discovery_batch_partial_failure (repo : Repo)
    (fetched : List RawTopic) (fe : List String)
    (rank : List RawTopic → Option (List (Option Ranking)))
    (hfail : ∃ b ∈ chunkSucc 9 (deduplicateTopics repo (fun _ => false) fetched),
      rank b = none) :
    (discoveryRun repo rank (fun _ => false) fetched fe).2.topicsRanked <
      (discoveryRun repo rank (fun _ => false) fetched fe).2.topicsFound ∧
    (discoveryRun repo rank (fun _ => false) fetched fe).2.errors ≠ [] ∧
    (∀ b ∈ chunkSucc 9 (deduplicateTopics repo (fun _ => false) fetched),
      b.length ≤ 10 ∧ b ≠ []) ∧
    (∀ b ∈ chunkSucc 9 (deduplicateTopics repo (fun _ => false) fetched),
      ∀ rks, rank b = some rks → ∀ t ∈ batchToTopics b rks,
        t ∈ (discoveryRun repo rank (fun _ => false) fetched fe).1.topics) := by
  obtain ⟨b0, hb0, hr0⟩ := hfail
  have hne : fetched ≠ [] := by
    rintro rfl
    simp [deduplicateTopics, dedupAux, chunkSucc, chunkSuccAux] at hb0
  rw [discoveryRun_eq repo rank (fun _ => false) fetched fe hne,
    discovery_ranked_saved repo fetched rank]
  dsimp only
  refine ⟨?_, ?_, ?_, ?_⟩
  · have h1 : (rankTopics rank (deduplicateTopics repo (fun _ => false) fetched)).1.length <
        (deduplicateTopics repo (fun _ => false) fetched).length := by
      have h2 := rankBatchesList_length_lt rank
        (chunkSucc 9 (deduplicateTopics repo (fun _ => false) fetched))
        ⟨b0, hb0, hr0, chunkSucc_ne_nil 9 _ b0 hb0⟩
      rw [chunkSucc_flatten] at h2
      exact h2
    have h3 : (deduplicateTopics repo (fun _ => false) fetched).length ≤
        fetched.length :=
      (dedupAux_sublist (repoLookup repo (fun _ => false)) [] fetched).length_le
    omega
  · have herr := rankBatchesList_errors_ne rank
      (chunkSucc 9 (deduplicateTopics repo (fun _ => false) fetched)) ⟨b0, hb0, hr0⟩
    intro hc
    exact herr (List.append_eq_nil.mp hc).2
  · exact fun b hb => ⟨chunkSucc_length_le 9 _ b hb, chunkSucc_ne_nil 9 _ b hb⟩
  · intro b hb rks hr t ht
    exact List.mem_append_right _
      (rankBatchesList_mem rank
        (chunkSucc 9 (deduplicateTopics repo (fun _ => false) fetched))
        b rks hb hr t ht)

/-- C7 witness: eleven items into an empty store, with scoring failing on
the trailing singleton batch. -/
theorem discovery_batch_partial_failure_witness :
    (discoveryRun (Repo.mk [] []) c7rank (fun _ => false) c7raws []).2.topicsRanked <
      (discoveryRun (Repo.mk [] []) c7rank (fun _ => false) c7raws []).2.topicsFound ∧
    (discoveryRun (Repo.mk [] []) c7rank (fun _ => false) c7raws []).2.errors ≠ [] ∧
    (∀ b ∈ chunkSucc 9 (deduplicateTopics (Repo.mk [] []) (fun _ => false) c7raws),
      b.length ≤ 10 ∧ b ≠ []) ∧
    (∀ b ∈ chunkSucc 9 (deduplicateTopics (Repo.mk [] []) (fun _ => false) c7raws),
      ∀ rks, c7rank b = some rks → ∀ t ∈ batchToTopics b rks,
        t ∈ (discoveryRun (Repo.mk [] []) c7rank (fun _ => false) c7raws []).1.topics) :=
  discovery_batch_partial_failure (Repo.mk [] []) c7raws [] c7rank (by decide)
